import Mathlib

set_option maxRecDepth 4000

/-!
Verification development for the C# dependency-injection analyzer
(`src/csharp/analyzer.ts`) and the registration-suggestion builder
(`src/extension.ts`).

The parser (tree-sitter) is an external capability: per the specification,
the core's scope begins at "given a syntax tree, produce the analysis".
We therefore model syntax trees as a data type exposing exactly what the
analyzer reads from tree-sitter nodes: the node kind (`node.type` in the
source), the field name the node occupies in its parent (`childForFieldName`),
whether the node is a named node (`namedChildren`), byte offsets
(`startIndex` / `endIndex`) and the ordered child list.  `analyzeCSharp`
takes the source text together with the tree the external parser returned
for it.  Tree-sitter's `hasError` (internal error markers) is modelled as
the presence of a node of kind "ERROR" anywhere in the tree.
-/

/-- A syntax tree node as exposed by the external syntax access layer. -/
inductive SyntaxNode : Type where
  | node (kind : String) (field : Option String) (isNamed : Bool)
      (startIndex endIndex : Nat) (children : List SyntaxNode) : SyntaxNode

def SyntaxNode.kind : SyntaxNode → String
  | .node k _ _ _ _ _ => k

def SyntaxNode.field : SyntaxNode → Option String
  | .node _ f _ _ _ _ => f

def SyntaxNode.isNamed : SyntaxNode → Bool
  | .node _ _ b _ _ _ => b

def SyntaxNode.startIndex : SyntaxNode → Nat
  | .node _ _ _ s _ _ => s

def SyntaxNode.endIndex : SyntaxNode → Nat
  | .node _ _ _ _ e _ => e

def SyntaxNode.children : SyntaxNode → List SyntaxNode
  | .node _ _ _ _ _ cs => cs

/-- First immediate child occupying the given field name, as in tree-sitter's
`childForFieldName`. -/
def SyntaxNode.childForFieldName (n : SyntaxNode) (f : String) : Option SyntaxNode :=
  n.children.find? (fun c => c.field == some f)

/-- The whitespace class used by JavaScript `trim` / `\s` (ASCII part). -/
def jsIsSpace (c : Char) : Bool :=
  c == ' ' || c == '\t' || c == '\n' || c == '\r' || c == '\x0b' || c == '\x0c'

def trimChars (l : List Char) : List Char :=
  ((l.dropWhile jsIsSpace).reverse.dropWhile jsIsSpace).reverse

def trimString (s : String) : String :=
  String.mk (trimChars s.toList)

/-- `getText` from the analyzer: `source.slice(node.startIndex, node.endIndex).trim()`. -/
def getText (source : String) (n : SyntaxNode) : String :=
  String.mk (trimChars ((source.toList.drop n.startIndex).take (n.endIndex - n.startIndex)))

/-- Node kinds accepted by the type resolver's second strategy. -/
def isIdLikeKind (k : String) : Bool :=
  k == "identifier" || k == "generic_name" || k == "nullable_type" || k == "predefined_type"

/-- The positional fallback loop of `findTypeOfParameter` (lines 58-64 of the
analyzer): walk the children in order and return the text of the first child
ending at or before `nameIndex` whose kind is identifier-like or array_type. -/
def findTypeLoop (source : String) (nameIndex : Nat) : List SyntaxNode → String
  | [] => ""
  | c :: rest =>
    if c.endIndex ≤ nameIndex ∧ (isIdLikeKind c.kind || c.kind == "array_type") = true then
      getText source c
    else findTypeLoop source nameIndex rest

/-- `findTypeOfParameter` from the analyzer: designated "type" field, else first
identifier-like immediate child, else the positional fallback before the name
field's start offset, else the empty string. -/
def findTypeOfParameter (source : String) (p : SyntaxNode) : String :=
  match (p.childForFieldName "type").orElse
      (fun _ => p.children.find? (fun c => isIdLikeKind c.kind)) with
  | some typeMod => getText source typeMod
  | none =>
    findTypeLoop source
      (match p.childForFieldName "name" with
        | some nn => nn.startIndex
        | none => p.endIndex)
      p.children

mutual

/-- Recursive descendant search by kind (the analyzer's `collectDescendants`
fallback; tree-sitter's `descendantsOfType` produces the same preorder list). -/
def collectDescendants (t : String) : SyntaxNode → List SyntaxNode
  | .node k f nm s e cs =>
    (if k == t then [SyntaxNode.node k f nm s e cs] else []) ++ collectDescendantsList t cs

def collectDescendantsList (t : String) : List SyntaxNode → List SyntaxNode
  | [] => []
  | c :: cs => collectDescendants t c ++ collectDescendantsList t cs

end

mutual

/-- Tree-sitter's `rootNode.hasError`, modelled as the presence of an
"ERROR"-kind node anywhere in the tree. -/
def hasErrorNode : SyntaxNode → Bool
  | .node k _ _ _ _ cs => k == "ERROR" || hasErrorList cs

def hasErrorList : List SyntaxNode → Bool
  | [] => false
  | c :: cs => hasErrorNode c || hasErrorList cs

end

/-- Names recorded from the "name" field of every declaration of the given kind
(the body of `collectInterfacesAndClasses`'s `collectByType`). -/
def namesOfKind (source : String) (root : SyntaxNode) (t : String) : List String :=
  (collectDescendants t root).filterMap
    (fun n => (n.childForFieldName "name").map (fun nn => getText source nn))

/-- `collectInterfacesAndClasses`: interface names and class names declared
anywhere in the unit.  The source keeps them in `Set`s that are only ever
queried through `has`, so lists queried through membership are a faithful model. -/
def collectInterfacesAndClasses (source : String) (root : SyntaxNode) :
    List String × List String :=
  (namesOfKind source root "interface_declaration",
   namesOfKind source root "class_declaration")

structure ConstructorParam where
  type : String
  name : String
  startIndex : Nat
  endIndex : Nat
  deriving DecidableEq

structure ConstructorInfo where
  className : String
  parameters : List ConstructorParam
  startIndex : Nat
  endIndex : Nat
  deriving DecidableEq

structure ConcreteTypeIssue where
  className : String
  paramType : String
  paramName : String
  startIndex : Nat
  endIndex : Nat
  deriving DecidableEq

structure CircularDependencyIssue where
  cycle : List String
  deriving DecidableEq

/-- The analyzer's result record.  The source interface `CSharpDiAnalysis`
has exactly these four fields. -/
structure CSharpDiAnalysis where
  constructors : List ConstructorInfo
  errors : List String
  concreteTypeIssues : List ConcreteTypeIssue
  circularDependencyIssues : List CircularDependencyIssue
  deriving DecidableEq

/-- The parameter-node filter of the extraction loop: `namedChildren` when any
exist, else the children of parameter kind. -/
def paramNodesOf (paramList : SyntaxNode) : List SyntaxNode :=
  let named := paramList.children.filter (fun c => c.isNamed)
  if named.length > 0 then named
  else paramList.children.filter
    (fun p => p.kind == "parameter" || p.kind == "_parameter_array")

/-- The per-parameter extraction loop (analyzer lines 195-208): skip nodes that
are not parameters, drop parameters without a resolvable name, map an empty
resolved type to the sentinel "?". -/
def extractParams (source : String) : List SyntaxNode → List ConstructorParam
  | [] => []
  | p :: rest =>
    if p.kind == "parameter" || p.kind == "_parameter_array" then
      match p.childForFieldName "name" with
      | none => extractParams source rest
      | some nn =>
        if getText source nn = "" then extractParams source rest
        else
          ⟨if findTypeOfParameter source p = "" then "?" else findTypeOfParameter source p,
            getText source nn, p.startIndex, p.endIndex⟩ :: extractParams source rest
    else extractParams source rest

/-- Constructor records contributed by one class declaration node. -/
def constructorsOfClass (source : String) (classNode : SyntaxNode) : List ConstructorInfo :=
  (collectDescendants "constructor_declaration" classNode).map
    (fun ctor =>
      ⟨(match classNode.childForFieldName "name" with
         | some nn => getText source nn
         | none => ""),
       (match ctor.childForFieldName "parameters" with
         | some pl => extractParams source (paramNodesOf pl)
         | none => []),
       ctor.startIndex, ctor.endIndex⟩)

/-- The constructor-extraction pass of `analyzeCSharp`. -/
def extractConstructors (source : String) (root : SyntaxNode) : List ConstructorInfo :=
  (collectDescendants "class_declaration" root).flatMap (constructorsOfClass source)

/-- The concrete-type detection pass (analyzer lines 220-235). -/
def concreteTypeIssuesOf (constructors : List ConstructorInfo)
    (classesInFile interfaces : List String) : List ConcreteTypeIssue :=
  constructors.flatMap (fun c =>
    c.parameters.filterMap (fun p =>
      if p.type = "" ∨ p.type = "?" then none
      else if p.type ∈ classesInFile ∧ p.type ∉ interfaces then
        some ⟨c.className, p.type, p.name, p.startIndex, p.endIndex⟩
      else none))

/-- `Map.set` on an insertion-ordered association list: overwrite in place if the
key exists, else append. -/
def mapSet (m : List (String × List String)) (k : String) (v : List String) :
    List (String × List String) :=
  match m with
  | [] => [(k, v)]
  | (k1, v1) :: rest => if k1 = k then (k, v) :: rest else (k1, v1) :: mapSet rest k v

/-- Dependency types of one constructor record: parameter types that are classes
declared in the same unit. -/
def depsOf (classesInFile : List String) (c : ConstructorInfo) : List String :=
  (c.parameters.map (fun p => p.type)).filter (fun t => decide (t ∈ classesInFile))

/-- `buildDependencyGraph`: class name to dependency list; classes whose filtered
dependency list is empty get no entry. -/
def buildDependencyGraph (constructors : List ConstructorInfo)
    (classesInFile : List String) : List (String × List String) :=
  constructors.foldl
    (fun g c =>
      if depsOf classesInFile c ≠ [] then mapSet g c.className (depsOf classesInFile c) else g)
    []

/-- Lexicographic code-point comparison on character lists: the comparison the
JavaScript default `Array.sort()` applies to strings (code units and code
points agree on the ASCII texts involved). -/
def charListLe : List Char → List Char → Bool
  | [], _ => true
  | _ :: _, [] => false
  | a :: as, b :: bs =>
    if a.toNat < b.toNat then true
    else if b.toNat < a.toNat then false
    else charListLe as bs

/-- The JavaScript default string sort order. -/
def jsLeB (a b : String) : Bool := charListLe a.toList b.toList

/-- The cycle-deduplication key (analyzer line 119):
`cycle.slice(0, -1).sort().join(",")`. -/
def cycleKey (cycle : List String) : String :=
  String.intercalate "," (List.insertionSort (fun a b => jsLeB a b = true) cycle.dropLast)

/-- Mutable state shared by the depth-first traversal: the cycles found, the
deduplication keys already seen, and the visited set of the current start node. -/
structure DfsState where
  cycles : List (List String)
  seen : List String
  visited : List String
  deriving DecidableEq

/-- The `dfs` closure of `findCycles`, with the mutated sets made explicit.
The explicit `path` list plays both roles of the source's `path` / `pathSet`
pair, which the source keeps in sync.  The fuel argument bounds the recursion
depth; `findCycles` passes one more than the number of node occurrences in the
graph, which the visited set makes unreachable. -/
def dfs (graph : List (String × List String)) :
    Nat → String → List String → DfsState → DfsState
  | 0, _, _, st => st
  | fuel + 1, node, path, st =>
    if node ∈ path then
      if cycleKey (path.drop (path.indexOf node) ++ [node]) ∈ st.seen then st
      else
        ⟨st.cycles ++ [path.drop (path.indexOf node) ++ [node]],
         st.seen ++ [cycleKey (path.drop (path.indexOf node) ++ [node])],
         st.visited⟩
    else if node ∈ st.visited then st
    else
      ((graph.lookup node).getD []).foldl
        (fun acc d => dfs graph fuel d (path ++ [node]) acc)
        ⟨st.cycles, st.seen, st.visited ++ [node]⟩

/-- `findCycles`: depth-first search from every graph key, with a fresh visited
set per start node and the cycle list and seen-key set shared across starts. -/
def findCycles (graph : List (String × List String)) : List (List String) :=
  ((graph.map Prod.fst).foldl
    (fun st node =>
      dfs graph ((graph.map Prod.fst ++ graph.flatMap Prod.snd).length + 1) node []
        ⟨st.cycles, st.seen, []⟩)
    ⟨[], [], []⟩).cycles

/-- The advisory warning pushed when the parse tree has error markers. -/
def parseWarningText : String :=
  "Parse had syntax errors; analysis may be incomplete."

/-- `analyzeCSharp`, given the source text and the tree the external parser
returned for it. -/
def analyzeCSharp (source : String) (tree : SyntaxNode) : CSharpDiAnalysis :=
  ⟨extractConstructors source tree,
   (if hasErrorNode tree then [parseWarningText] else []),
   concreteTypeIssuesOf (extractConstructors source tree)
     (collectInterfacesAndClasses source tree).2
     (collectInterfacesAndClasses source tree).1,
   (findCycles (buildDependencyGraph (extractConstructors source tree)
       (collectInterfacesAndClasses source tree).2)).map CircularDependencyIssue.mk⟩

/-!
Embedding of `buildRegistrationSuggestions` from `src/extension.ts`.  The
function scans the raw source with the global regex
`/public\s+class\s+(\w+)(\s*:\s*([^{\r\n]+))?/g`; for this fixed pattern a
maximal-munch matcher is exactly equivalent (every quantified character class
is disjoint from the character that follows it, so no backtracking can occur),
and repeated `exec` is the leftmost match from the previous match's end.
-/

/-- JavaScript `\w`: ASCII letters, digits and underscore. -/
def isWordChar (c : Char) : Bool :=
  decide (('a' ≤ c ∧ c ≤ 'z') ∨ ('A' ≤ c ∧ c ≤ 'Z') ∨ ('0' ≤ c ∧ c ≤ '9') ∨ c = '_')

def matchLit : List Char → List Char → Option (List Char)
  | [], l => some l
  | _ :: _, [] => none
  | p :: ps, c :: cs => if p = c then matchLit ps cs else none

/-- Characters allowed in the base-clause capture `[^{\r\n]+`. -/
def isBaseChar (c : Char) : Bool :=
  decide (c ≠ '\x7b' ∧ c ≠ '\r' ∧ c ≠ '\n')

/-- The optional `(\s*:\s*([^{\r\n]+))?` tail of the class regex: on failure the
group matches empty and the match ends right after the class name. -/
def matchBaseClause (name : String) (l4 : List Char) :
    Option (String × Option String × List Char) :=
  match (l4.dropWhile jsIsSpace) with
  | ':' :: l6 =>
    if ((l6.dropWhile jsIsSpace).takeWhile isBaseChar).length = 0 then some (name, none, l4)
    else
      some (name, some (String.mk ((l6.dropWhile jsIsSpace).takeWhile isBaseChar)),
        (l6.dropWhile jsIsSpace).dropWhile isBaseChar)
  | _ => some (name, none, l4)

/-- Attempt the class regex at the head of the input.  On success, return the
captured class name, the optional captured base clause, and the input remaining
after the match. -/
def matchClassAt (l : List Char) : Option (String × Option String × List Char) :=
  match matchLit "public".toList l with
  | none => none
  | some l1 =>
    if (l1.takeWhile jsIsSpace).length = 0 then none
    else
      match matchLit "class".toList (l1.dropWhile jsIsSpace) with
      | none => none
      | some l2 =>
        if (l2.takeWhile jsIsSpace).length = 0 then none
        else
          if ((l2.dropWhile jsIsSpace).takeWhile isWordChar).length = 0 then none
          else
            matchBaseClause (String.mk ((l2.dropWhile jsIsSpace).takeWhile isWordChar))
              ((l2.dropWhile jsIsSpace).dropWhile isWordChar)

/-- Leftmost match of the class regex: try every start position in order. -/
def findNextClassMatch : List Char → Option (String × Option String × List Char)
  | [] => none
  | c :: cs =>
    match matchClassAt (c :: cs) with
    | some r => some r
    | none => findNextClassMatch cs

/-- All matches of the global class regex, in order.  Every match consumes at
least one character, so fuel one larger than the input length cannot run out. -/
def scanClasses : Nat → List Char → List (String × Option String)
  | 0, _ => []
  | fuel + 1, l =>
    match findNextClassMatch l with
    | none => []
    | some (n, b, rest) => (n, b) :: scanClasses fuel rest

/-- `Set.add` on an insertion-ordered list. -/
def setAdd (l : List String) (x : String) : List String :=
  if x ∈ l then l else l ++ [x]

/-- Adding to the `interfaceToImpl` multimap (a `Map` of `Set`s in the source). -/
def mmAdd (m : List (String × List String)) (k : String) (v : String) :
    List (String × List String) :=
  match m with
  | [] => [(k, [v])]
  | (k1, vs) :: rest =>
    if k1 = k then (k1, setAdd vs v) :: rest else (k1, vs) :: mmAdd rest k v

/-- Splitting on a single-character separator, as JavaScript `split(",")`
(an empty input yields one empty piece; separators at the ends yield empty
pieces). -/
def splitOnCharAux (sep : Char) : List Char → List Char → List String
  | [], acc => [String.mk acc.reverse]
  | c :: cs, acc =>
    if c = sep then String.mk acc.reverse :: splitOnCharAux sep cs []
    else splitOnCharAux sep cs (c :: acc)

def splitOnChar (sep : Char) (s : String) : List String :=
  splitOnCharAux sep s.toList []

/-- `rawBase.split("<")[0]`. -/
def firstSegment (sep : Char) (s : String) : String :=
  String.mk (s.toList.takeWhile (fun c => decide (c ≠ sep)))

/-- The interface-naming heuristic `/^I[A-Z]/.test(baseName)`. -/
def isInterfaceLikeName (s : String) : Bool :=
  match s.toList with
  | 'I' :: c :: _ => decide ('A' ≤ c ∧ c ≤ 'Z')
  | _ => false

/-- The `interfaceToImpl` map built by the regex scan over the source. -/
def interfaceToImplOf (source : String) : List (String × List String) :=
  (scanClasses (source.toList.length + 1) source.toList).foldl
    (fun m pr =>
      match pr.2 with
      | none => m
      | some bases =>
        (splitOnChar ',' bases).foldl
          (fun m2 rawBase =>
            if isInterfaceLikeName (trimString (firstSegment '<' rawBase)) then
              mmAdd m2 (trimString (firstSegment '<' rawBase)) pr.1
            else m2)
          m)
    []

/-- `buildRegistrationSuggestions` from `src/extension.ts`: scoped suggestions
for every recorded interface implementation, transient self-registrations for
remaining constructor-owning classes, deduplicated and sorted. -/
def buildRegistrationSuggestions (constructors : List ConstructorInfo) (source : String) :
    List String :=
  List.insertionSort (fun a b => jsLeB a b = true)
    (constructors.foldl
      (fun s c =>
        if c.className = "" ∨
            c.className ∈ (interfaceToImplOf source).foldl (fun acc q => acc ++ q.2) [] then s
        else setAdd s ("services.AddTransient<" ++ c.className ++ ">();"))
      ((interfaceToImplOf source).foldl
        (fun s q =>
          q.2.foldl
            (fun s2 impl => setAdd s2 ("services.AddScoped<" ++ q.1 ++ ", " ++ impl ++ ">();"))
            s)
        []))

/-- Modelled from the spec: claim C7 describes the positional fallback of the
type resolver as returning the text of the LAST child ending at or before the
name field's start offset whose kind is accepted.  This definition follows the
claim's words; it exists only to be compared against `findTypeOfParameter`. -/
def findTypeLoopLastSpec (source : String) (nameIndex : Nat) (children : List SyntaxNode) :
    String :=
  match (children.filter
      (fun c => decide (c.endIndex ≤ nameIndex) &&
        (isIdLikeKind c.kind || c.kind == "array_type"))).getLast? with
  | some c => getText source c
  | none => ""

/-- Modelled from the spec (claim C7's wording): the type resolver with the
last-matching-child fallback instead of the first-matching-child one. -/
def findTypeOfParameterLastSpec (source : String) (p : SyntaxNode) : String :=
  match (p.childForFieldName "type").orElse
      (fun _ => p.children.find? (fun c => isIdLikeKind c.kind)) with
  | some typeMod => getText source typeMod
  | none =>
    findTypeLoopLastSpec source
      (match p.childForFieldName "name" with
        | some nn => nn.startIndex
        | none => p.endIndex)
      p.children

/-!
Concrete inputs: source texts together with the syntax trees the external
C# parser produces for them (kinds, fields and byte spans as in
tree-sitter-c-sharp output).
-/

def tnode (kind : String) (field : Option String) (s e : Nat)
    (cs : List SyntaxNode) : SyntaxNode :=
  SyntaxNode.node kind field true s e cs

def ttok (kind : String) (s e : Nat) : SyntaxNode :=
  SyntaxNode.node kind none false s e []

/-- Source with class `A` whose constructor takes a concrete class `B`. -/
def srcAB : String := "class A \x7b A(B b) \x7b \x7d \x7d class B \x7b \x7d"

def treeAB : SyntaxNode :=
  tnode "compilation_unit" none 0 34
    [tnode "class_declaration" none 0 22
      [ttok "class" 0 5,
       tnode "identifier" (some "name") 6 7 [],
       tnode "declaration_list" (some "body") 8 22
         [ttok "\x7b" 8 9,
          tnode "constructor_declaration" none 10 20
            [tnode "identifier" (some "name") 10 11 [],
             tnode "parameter_list" (some "parameters") 11 16
               [ttok "(" 11 12,
                tnode "parameter" none 12 15
                  [tnode "identifier" (some "type") 12 13 [],
                   tnode "identifier" (some "name") 14 15 []],
                ttok ")" 15 16],
             tnode "block" (some "body") 17 20 []],
          ttok "\x7d" 21 22]],
     tnode "class_declaration" none 23 34
      [ttok "class" 23 28,
       tnode "identifier" (some "name") 29 30 [],
       tnode "declaration_list" (some "body") 31 34 []]]

/-- Source with the mutual constructor dependency ServiceA / ServiceB. -/
def srcServices : String :=
  "class ServiceA \x7b ServiceA(ServiceB b) \x7b \x7d \x7d class ServiceB \x7b ServiceB(ServiceA a) \x7b \x7d \x7d"

def treeServices : SyntaxNode :=
  tnode "compilation_unit" none 0 87
    [tnode "class_declaration" none 0 43
      [ttok "class" 0 5,
       tnode "identifier" (some "name") 6 14 [],
       tnode "declaration_list" (some "body") 15 43
         [ttok "\x7b" 15 16,
          tnode "constructor_declaration" none 17 41
            [tnode "identifier" (some "name") 17 25 [],
             tnode "parameter_list" (some "parameters") 25 37
               [ttok "(" 25 26,
                tnode "parameter" none 26 36
                  [tnode "identifier" (some "type") 26 34 [],
                   tnode "identifier" (some "name") 35 36 []],
                ttok ")" 36 37],
             tnode "block" (some "body") 38 41 []],
          ttok "\x7d" 42 43]],
     tnode "class_declaration" none 44 87
      [ttok "class" 44 49,
       tnode "identifier" (some "name") 50 58 [],
       tnode "declaration_list" (some "body") 59 87
         [ttok "\x7b" 59 60,
          tnode "constructor_declaration" none 61 85
            [tnode "identifier" (some "name") 61 69 [],
             tnode "parameter_list" (some "parameters") 69 81
               [ttok "(" 69 70,
                tnode "parameter" none 70 80
                  [tnode "identifier" (some "type") 70 78 [],
                   tnode "identifier" (some "name") 79 80 []],
                ttok ")" 80 81],
             tnode "block" (some "body") 82 85 []],
          ttok "\x7d" 86 87]]]

/-- Source with a self-dependent class `X`. -/
def srcSelf : String := "class X \x7b X(X x) \x7b \x7d \x7d"

def treeSelf : SyntaxNode :=
  tnode "compilation_unit" none 0 22
    [tnode "class_declaration" none 0 22
      [ttok "class" 0 5,
       tnode "identifier" (some "name") 6 7 [],
       tnode "declaration_list" (some "body") 8 22
         [ttok "\x7b" 8 9,
          tnode "constructor_declaration" none 10 20
            [tnode "identifier" (some "name") 10 11 [],
             tnode "parameter_list" (some "parameters") 11 16
               [ttok "(" 11 12,
                tnode "parameter" none 12 15
                  [tnode "identifier" (some "type") 12 13 [],
                   tnode "identifier" (some "name") 14 15 []],
                ttok ")" 15 16],
             tnode "block" (some "body") 17 20 []],
          ttok "\x7d" 21 22]]]

/-- Source whose constructor parameter has a resolvable name but no type token
the resolver recognises (the name occupies the whole parameter). -/
def srcNoType : String := "class C \x7b C(n) \x7b \x7d \x7d"

def treeNoType : SyntaxNode :=
  tnode "compilation_unit" none 0 20
    [tnode "class_declaration" none 0 20
      [ttok "class" 0 5,
       tnode "identifier" (some "name") 6 7 [],
       tnode "declaration_list" (some "body") 8 20
         [ttok "\x7b" 8 9,
          tnode "constructor_declaration" none 10 18
            [tnode "identifier" (some "name") 10 11 [],
             tnode "parameter_list" (some "parameters") 11 14
               [ttok "(" 11 12,
                tnode "parameter" none 12 13
                  [tnode "tuple_pattern" (some "name") 12 13 []],
                ttok ")" 13 14],
             tnode "block" (some "body") 15 18 []],
          ttok "\x7d" 19 20]]]

/-- The name node of the unresolvable-type parameter of `srcNoType`. -/
def nameNoType : SyntaxNode := tnode "tuple_pattern" (some "name") 12 13 []

/-- The unresolvable-type parameter node of `srcNoType`. -/
def paramNoType : SyntaxNode := tnode "parameter" none 12 13 [nameNoType]

/-- A bare parameter node with two array-type children before the name: the
first and the last matching child of the positional fallback differ. -/
def srcTwoArrays : String := "A B n"

def nodeTwoArrays : SyntaxNode :=
  tnode "parameter" none 0 5
    [tnode "array_type" none 0 1 [],
     tnode "array_type" none 2 3 [],
     tnode "tuple_pattern" (some "name") 4 5 []]

/-- An empty, syntactically valid compilation unit. -/
def treeEmptyUnit : SyntaxNode := tnode "compilation_unit" none 0 0 []

/-- A syntactically valid unit with a class but no constructors. -/
def srcNoCtor : String := "class A \x7b \x7d"

def treeNoCtor : SyntaxNode :=
  tnode "compilation_unit" none 0 11
    [tnode "class_declaration" none 0 11
      [ttok "class" 0 5,
       tnode "identifier" (some "name") 6 7 [],
       tnode "declaration_list" (some "body") 8 11 []]]

/-- The self-dependency source followed by stray tokens the parser marks as an
internal error node: a partial tree with error markers. -/
def srcWithError : String := "class X \x7b X(X x) \x7b \x7d \x7d @@"

def treeWithError : SyntaxNode :=
  tnode "compilation_unit" none 0 25
    [tnode "class_declaration" none 0 22
      [ttok "class" 0 5,
       tnode "identifier" (some "name") 6 7 [],
       tnode "declaration_list" (some "body") 8 22
         [ttok "\x7b" 8 9,
          tnode "constructor_declaration" none 10 20
            [tnode "identifier" (some "name") 10 11 [],
             tnode "parameter_list" (some "parameters") 11 16
               [ttok "(" 11 12,
                tnode "parameter" none 12 15
                  [tnode "identifier" (some "type") 12 13 [],
                   tnode "identifier" (some "name") 14 15 []],
                ttok ")" 15 16],
             tnode "block" (some "body") 17 20 []],
          ttok "\x7d" 21 22]],
     tnode "ERROR" none 23 25 []]

/-- Source for the registration-suggestion example: an interface, a class
implementing it, and a class whose constructor consumes the interface. -/
def srcLogger : String :=
  "interface ILogger \x7b \x7d\npublic class ConsoleLogger : ILogger \x7b public ConsoleLogger() \x7b \x7d \x7d\npublic class OrderService \x7b public OrderService(ILogger logger) \x7b \x7d \x7d"

/-- Constructor records of `srcLogger` as the analyzer reports them: a
parameterless `ConsoleLogger` constructor and an `OrderService` constructor
taking an `ILogger`. -/
def ctorsLogger : List ConstructorInfo :=
  [⟨"ConsoleLogger", [], 61, 87⟩,
   ⟨"OrderService", [⟨"ILogger", "logger", 138, 152⟩], 118, 157⟩]

/-! Helper lemmas shared by the claim theorems. -/

lemma mem_concreteTypeIssuesOf {cs : List ConstructorInfo} {classes ifaces : List String}
    {i : ConcreteTypeIssue} :
    i ∈ concreteTypeIssuesOf cs classes ifaces ↔
      ∃ c ∈ cs, ∃ p ∈ c.parameters,
        i = ⟨c.className, p.type, p.name, p.startIndex, p.endIndex⟩ ∧
          p.type ≠ "" ∧ p.type ≠ "?" ∧ p.type ∈ classes ∧ p.type ∉ ifaces := by
  unfold concreteTypeIssuesOf
  rw [List.mem_flatMap]
  constructor
  · rintro ⟨c, hc, hi⟩
    rw [List.mem_filterMap] at hi
    obtain ⟨p, hp, hf⟩ := hi
    refine ⟨c, hc, p, hp, ?_⟩
    by_cases h1 : p.type = "" ∨ p.type = "?"
    · rw [if_pos h1] at hf; simp at hf
    · rw [if_neg h1] at hf
      by_cases h2 : p.type ∈ classes ∧ p.type ∉ ifaces
      · rw [if_pos h2] at hf
        rw [Option.some_inj] at hf
        push_neg at h1
        exact ⟨hf.symm, h1.1, h1.2, h2.1, h2.2⟩
      · rw [if_neg h2] at hf; simp at hf
  · rintro ⟨c, hc, p, hp, rfl, h1, h2, h3, h4⟩
    refine ⟨c, hc, ?_⟩
    rw [List.mem_filterMap]
    refine ⟨p, hp, ?_⟩
    rw [if_neg (by tauto), if_pos ⟨h3, h4⟩]

/-- Shape invariant of every cycle the traversal emits: at least two entries,
and the first entry repeated at the end. -/
def ClosedCycle (c : List String) : Prop :=
  2 ≤ c.length ∧ c.head? = c.getLast?

lemma closedCycle_emit {path : List String} {node : String} (h : node ∈ path) :
    ClosedCycle (path.drop (path.indexOf node) ++ [node]) := by
  have hlt : path.indexOf node < path.length := List.indexOf_lt_length.2 h
  constructor
  · rw [List.length_append, List.length_drop]
    simp only [List.length_singleton]
    omega
  · rw [List.head?_append, List.getLast?_concat, List.head?_drop,
      List.getElem?_eq_getElem hlt, List.getElem_indexOf hlt]
    rfl

lemma dfs_cycles_closed (graph : List (String × List String)) :
    ∀ (fuel : Nat) (node : String) (path : List String) (st : DfsState),
      (∀ c ∈ st.cycles, ClosedCycle c) →
      ∀ c ∈ (dfs graph fuel node path st).cycles, ClosedCycle c := by
  intro fuel
  induction fuel with
  | zero => intro node path st h; simpa [dfs] using h
  | succ fuel ih =>
    intro node path st hst
    simp only [dfs]
    by_cases hmem : node ∈ path
    · rw [if_pos hmem]
      by_cases hseen : cycleKey (path.drop (path.indexOf node) ++ [node]) ∈ st.seen
      · rw [if_pos hseen]; exact hst
      · rw [if_neg hseen]
        intro c hc
        simp only [List.mem_append, List.mem_singleton] at hc
        rcases hc with hc | rfl
        · exact hst c hc
        · exact closedCycle_emit hmem
    · rw [if_neg hmem]
      by_cases hvis : node ∈ st.visited
      · rw [if_pos hvis]; exact hst
      · rw [if_neg hvis]
        have hfold : ∀ (ds : List String) (acc : DfsState),
            (∀ c ∈ acc.cycles, ClosedCycle c) →
            ∀ c ∈ (ds.foldl (fun a d => dfs graph fuel d (path ++ [node]) a) acc).cycles,
              ClosedCycle c := by
          intro ds
          induction ds with
          | nil => intro acc h; simpa using h
          | cons d ds ihd =>
            intro acc h
            rw [List.foldl_cons]
            exact ihd _ (ih d (path ++ [node]) acc h)
        exact hfold _ _ hst

lemma findCycles_closed (graph : List (String × List String)) :
    ∀ c ∈ findCycles graph, ClosedCycle c := by
  unfold findCycles
  generalize (graph.map Prod.fst ++ graph.flatMap Prod.snd).length + 1 = F
  have main : ∀ (ks : List String) (st : DfsState),
      (∀ c ∈ st.cycles, ClosedCycle c) →
      ∀ c ∈ (ks.foldl (fun st node => dfs graph F node [] ⟨st.cycles, st.seen, []⟩) st).cycles,
        ClosedCycle c := by
    intro ks
    induction ks with
    | nil => intro st h; simpa using h
    | cons k ks ih =>
      intro st h
      rw [List.foldl_cons]
      exact ih _ (dfs_cycles_closed graph F k [] ⟨st.cycles, st.seen, []⟩ h)
  exact main _ _ (by simp)

lemma extractParams_type_ne (source : String) :
    ∀ ps, ∀ p ∈ extractParams source ps, p.type ≠ "" := by
  intro ps
  induction ps with
  | nil => simp [extractParams]
  | cons q ps ih =>
    intro p hp
    rw [extractParams] at hp
    split at hp
    · split at hp
      · exact ih p hp
      · split at hp
        · exact ih p hp
        · rcases List.mem_cons.1 hp with rfl | hp
          · by_cases ht : findTypeOfParameter source q = "" <;> simp [ht]
          · exact ih p hp
    · exact ih p hp

lemma extractConstructors_param_type_ne (source : String) (root : SyntaxNode) :
    ∀ c ∈ extractConstructors source root, ∀ p ∈ c.parameters, p.type ≠ "" := by
  intro c hc p hp
  unfold extractConstructors at hc
  rw [List.mem_flatMap] at hc
  obtain ⟨cn, _, hc⟩ := hc
  unfold constructorsOfClass at hc
  rw [List.mem_map] at hc
  obtain ⟨ctor, _, rfl⟩ := hc
  simp only at hp
  cases h : ctor.childForFieldName "parameters" with
  | none => rw [h] at hp; simp at hp
  | some pl => rw [h] at hp; exact extractParams_type_ne source _ p hp

lemma findTypeLoop_eq_find (source : String) (nameIndex : Nat) :
    ∀ cs : List SyntaxNode,
      findTypeLoop source nameIndex cs =
        (match cs.find? (fun c => decide (c.endIndex ≤ nameIndex) &&
            (isIdLikeKind c.kind || c.kind == "array_type")) with
          | some c => getText source c
          | none => "") := by
  intro cs
  induction cs with
  | nil => rfl
  | cons c cs ih =>
    rw [findTypeLoop]
    by_cases h : c.endIndex ≤ nameIndex ∧ (isIdLikeKind c.kind || c.kind == "array_type") = true
    · rw [if_pos h]
      rw [List.find?_cons_of_pos _ (by simp [h.1, h.2])]
    · rw [if_neg h]
      rw [List.find?_cons_of_neg _ (by simpa [Decidable.not_and_iff_or_not] using h)]
      exact ih

lemma setAdd_nodup (l : List String) (x : String) (h : l.Nodup) : (setAdd l x).Nodup := by
  by_cases hx : x ∈ l
  · rw [setAdd, if_pos hx]; exact h
  · rw [setAdd, if_neg hx]
    simp [List.nodup_append, h, hx]

lemma nodup_foldl_preserve {α : Type} (g : List String → α → List String)
    (hg : ∀ s x, s.Nodup → (g s x).Nodup) :
    ∀ (xs : List α) (acc : List String), acc.Nodup → (xs.foldl g acc).Nodup := by
  intro xs
  induction xs with
  | nil => intro acc h; simpa using h
  | cons x xs ih => intro acc h; rw [List.foldl_cons]; exact ih _ (hg _ _ h)

lemma mapSet_lookup_self (m : List (String × List String)) (k : String) (v : List String) :
    (mapSet m k v).lookup k = some v := by
  induction m with
  | nil => simp [mapSet, List.lookup]
  | cons kv m ih =>
    obtain ⟨k1, v1⟩ := kv
    rw [mapSet]
    by_cases h : k1 = k
    · rw [if_pos h]; simp [List.lookup]
    · rw [if_neg h]
      simp only [List.lookup]
      rw [show (k == k1) = false from beq_eq_false_iff_ne.2 (Ne.symm h)]
      exact ih

lemma mapSet_lookup_other (m : List (String × List String)) (k k9 : String)
    (v : List String) (h : k9 ≠ k) :
    (mapSet m k v).lookup k9 = m.lookup k9 := by
  induction m with
  | nil =>
    simp only [mapSet, List.lookup]
    rw [show (k9 == k) = false from beq_eq_false_iff_ne.2 h]
  | cons kv m ih =>
    obtain ⟨k1, v1⟩ := kv
    rw [mapSet]
    by_cases h1 : k1 = k
    · rw [if_pos h1]
      simp only [List.lookup]
      rw [show (k9 == k) = false from beq_eq_false_iff_ne.2 h,
        show (k9 == k1) = false from beq_eq_false_iff_ne.2 (h1 ▸ h)]
    · rw [if_neg h1]
      simp only [List.lookup]
      cases hbe : k9 == k1 with
      | true => rfl
      | false => exact ih

lemma buildGraph_foldl_lookup (classes : List String) (N : String) :
    ∀ (cs : List ConstructorInfo) (g : List (String × List String)),
      ((cs.foldl
          (fun g c =>
            if depsOf classes c ≠ [] then mapSet g c.className (depsOf classes c) else g)
          g).lookup N) =
        (((cs.filter (fun c => decide (c.className = N) && decide (depsOf classes c ≠ []))).getLast?).map
            (depsOf classes)).or (g.lookup N) := by
  intro cs
  induction cs with
  | nil => intro g; rfl
  | cons c cs ih =>
    intro g
    rw [List.foldl_cons, List.filter_cons]
    by_cases hd : depsOf classes c ≠ []
    · rw [if_pos hd]
      by_cases hn : c.className = N
      · rw [if_pos (by simp [hn, hd])]
        rw [ih]
        cases hfl : cs.filter (fun c => decide (c.className = N) && decide (depsOf classes c ≠ [])) with
        | nil =>
          simp only [List.getLast?_singleton, Option.map_some, hfl, List.getLast?_nil,
            Option.map_none, Option.none_or]
          rw [hn, mapSet_lookup_self]
          rfl
        | cons x xs =>
          rw [List.getLast?_cons_cons]
          rfl
      · rw [if_neg (by simp [hn])]
        rw [ih]
        rw [mapSet_lookup_other _ _ _ _ (fun he => hn he.symm)]
    · rw [if_neg hd, if_neg (by simp [hd])]
      exact ih g

lemma charListLe_total : ∀ as bs, charListLe as bs = true ∨ charListLe bs as = true := by
  intro as
  induction as with
  | nil => intro bs; left; rfl
  | cons a as ih =>
    intro bs
    cases bs with
    | nil => right; rfl
    | cons b bs =>
      rw [charListLe, charListLe]
      by_cases hab : a.toNat < b.toNat
      · left; rw [if_pos hab]
      · by_cases hba : b.toNat < a.toNat
        · right; rw [if_pos hba]
        · rw [if_neg hab, if_neg hba, if_neg hba, if_neg hab]
          exact ih bs

lemma charListLe_trans :
    ∀ as bs cs, charListLe as bs = true → charListLe bs cs = true →
      charListLe as cs = true := by
  intro as
  induction as with
  | nil => intro bs cs h1 h2; rfl
  | cons a as ih =>
    intro bs cs h1 h2
    cases bs with
    | nil => simp [charListLe] at h1
    | cons b bs =>
      cases cs with
      | nil => simp [charListLe] at h2
      | cons c cs =>
        rw [charListLe] at h1 h2 ⊢
        by_cases hab : a.toNat < b.toNat
        · by_cases hbc : b.toNat < c.toNat
          · rw [if_pos (Nat.lt_trans hab hbc)]
          · by_cases hcb : c.toNat < b.toNat
            · rw [if_neg hbc, if_pos hcb] at h2
              exact absurd h2 (by simp)
            · rw [if_pos (show a.toNat < c.toNat by omega)]
        · by_cases hba : b.toNat < a.toNat
          · rw [if_neg hab, if_pos hba] at h1
            exact absurd h1 (by simp)
          · rw [if_neg hab, if_neg hba] at h1
            by_cases hbc : b.toNat < c.toNat
            · rw [if_pos (show a.toNat < c.toNat by omega)]
            · by_cases hcb : c.toNat < b.toNat
              · rw [if_neg hbc, if_pos hcb] at h2
                exact absurd h2 (by simp)
              · rw [if_neg hbc, if_neg hcb] at h2
                rw [if_neg (show ¬a.toNat < c.toNat by omega),
                  if_neg (show ¬c.toNat < a.toNat by omega)]
                exact ih bs cs h1 h2

/-!
Claim theorems.
-/

/-- Claim C1: the analysis is total — for every source string and every tree the
external parser can return for it (including the empty tree of an empty string
and trees of non-C# text), `analyzeCSharp` yields a structurally valid result:
at most one parse warning, every concrete-type issue derived from an extracted
constructor and one of its parameters, and every circular-dependency issue a
nonempty cycle.  Totality and exception-freedom are witnessed by
`analyzeCSharp` being a total function on all inputs. -/
theorem analyzeCSharp_total_structurally_valid (source : String) (tree : SyntaxNode) :
    (analyzeCSharp source tree).errors.length ≤ 1 ∧
    (∀ i ∈ (analyzeCSharp source tree).concreteTypeIssues,
      ∃ c ∈ (analyzeCSharp source tree).constructors, ∃ p ∈ c.parameters,
        i.className = c.className ∧ i.paramType = p.type ∧ i.paramName = p.name) ∧
    (∀ ci ∈ (analyzeCSharp source tree).circularDependencyIssues, ci.cycle ≠ []) := by
  refine ⟨?_, ?_, ?_⟩
  · show (if hasErrorNode tree then [parseWarningText] else []).length ≤ 1
    split <;> simp
  · intro i hi
    have hi9 : i ∈ concreteTypeIssuesOf (extractConstructors source tree)
        (collectInterfacesAndClasses source tree).2
        (collectInterfacesAndClasses source tree).1 := hi
    obtain ⟨c, hc, p, hp, heq, -⟩ := mem_concreteTypeIssuesOf.1 hi9
    exact ⟨c, hc, p, hp, by rw [heq], by rw [heq], by rw [heq]⟩
  · intro ci hci
    have hci9 : ci ∈ (findCycles (buildDependencyGraph (extractConstructors source tree)
        (collectInterfacesAndClasses source tree).2)).map CircularDependencyIssue.mk := hci
    rw [List.mem_map] at hci9
    obtain ⟨cyc, hcyc, rfl⟩ := hci9
    have hclosed := (findCycles_closed _ cyc hcyc).1
    intro hnil
    have hnil9 : cyc = [] := hnil
    rw [hnil9] at hclosed
    exact absurd hclosed (by decide)

/-- Witness for claim C1 at a concrete input: the issue reported for
`class A { A(B b) } class B` originates from the extracted constructor of `A`. -/
theorem analyzeCSharp_total_structurally_valid_witness :
    (⟨"A", "B", "b", 12, 15⟩ : ConcreteTypeIssue) ∈
        (analyzeCSharp srcAB treeAB).concreteTypeIssues ∧
    (∃ c ∈ (analyzeCSharp srcAB treeAB).constructors, ∃ p ∈ c.parameters,
      (⟨"A", "B", "b", 12, 15⟩ : ConcreteTypeIssue).className = c.className ∧
      (⟨"A", "B", "b", 12, 15⟩ : ConcreteTypeIssue).paramType = p.type ∧
      (⟨"A", "B", "b", 12, 15⟩ : ConcreteTypeIssue).paramName = p.name) :=
  ⟨by decide,
   (analyzeCSharp_total_structurally_valid srcAB treeAB).2.1 ⟨"A", "B", "b", 12, 15⟩ (by decide)⟩

/-- Claim C2: for every extracted constructor parameter, a concrete-type issue
is emitted exactly when its type text is among the unit's class names, not
among its interface names, and is not the unresolved-type sentinel "?"; and the
`class A { A(B b) } class B` example yields exactly one issue, with
paramType "B". -/
theorem concreteTypeIssue_iff_and_example :
    (∀ (source : String) (tree : SyntaxNode),
      ∀ c ∈ (analyzeCSharp source tree).constructors, ∀ p ∈ c.parameters,
        ((⟨c.className, p.type, p.name, p.startIndex, p.endIndex⟩ : ConcreteTypeIssue) ∈
            (analyzeCSharp source tree).concreteTypeIssues ↔
          p.type ∈ (collectInterfacesAndClasses source tree).2 ∧
          p.type ∉ (collectInterfacesAndClasses source tree).1 ∧ p.type ≠ "?")) ∧
    (analyzeCSharp srcAB treeAB).concreteTypeIssues = [⟨"A", "B", "b", 12, 15⟩] := by
  constructor
  · intro source tree c hc p hp
    have hc9 : c ∈ extractConstructors source tree := hc
    have hne : p.type ≠ "" := extractConstructors_param_type_ne source tree c hc9 p hp
    constructor
    · intro hi
      have hi9 : (⟨c.className, p.type, p.name, p.startIndex, p.endIndex⟩ : ConcreteTypeIssue) ∈
          concreteTypeIssuesOf (extractConstructors source tree)
            (collectInterfacesAndClasses source tree).2
            (collectInterfacesAndClasses source tree).1 := hi
      obtain ⟨c9, -, p9, -, heq, -, h2, h3, h4⟩ := mem_concreteTypeIssuesOf.1 hi9
      have hty : p.type = p9.type := congrArg ConcreteTypeIssue.paramType heq
      rw [hty]
      exact ⟨h3, h4, h2⟩
    · rintro ⟨h3, h4, h2⟩
      exact mem_concreteTypeIssuesOf.2 ⟨c, hc9, p, hp, rfl, hne, h2, h3, h4⟩
  · rfl

/-- Witness for claim C2: the biconditional applied to the extracted constructor
of `A` and its parameter `B b`. -/
theorem concreteTypeIssue_iff_and_example_witness :
    ((⟨"B", "b", 12, 15⟩ : ConstructorParam).type ∈
        (collectInterfacesAndClasses srcAB treeAB).2 ∧
      (⟨"B", "b", 12, 15⟩ : ConstructorParam).type ∉
        (collectInterfacesAndClasses srcAB treeAB).1 ∧
      (⟨"B", "b", 12, 15⟩ : ConstructorParam).type ≠ "?") ∧
    (⟨"A", "B", "b", 12, 15⟩ : ConcreteTypeIssue) ∈
      (analyzeCSharp srcAB treeAB).concreteTypeIssues :=
  ⟨by decide,
   (concreteTypeIssue_iff_and_example.1 srcAB treeAB
      ⟨"A", [⟨"B", "b", 12, 15⟩], 10, 20⟩ (by decide)
      ⟨"B", "b", 12, 15⟩ (by decide)).2 (by decide)⟩

/-- Claim C3: the mutual ServiceA / ServiceB dependency yields exactly one
circular-dependency issue with participant set ServiceA, ServiceB; the same
graph keyed in the opposite order (so the depth-first search starts from the
other class) also yields exactly one cycle with the same participant set and
the same deduplication key, the members without the repeated closing name,
sorted and comma-joined. -/
theorem circular_dedup_example :
    (analyzeCSharp srcServices treeServices).circularDependencyIssues =
      [⟨["ServiceA", "ServiceB", "ServiceA"]⟩] ∧
    findCycles [("ServiceB", ["ServiceA"]), ("ServiceA", ["ServiceB"])] =
      [["ServiceB", "ServiceA", "ServiceB"]] ∧
    cycleKey ["ServiceA", "ServiceB", "ServiceA"] =
      cycleKey ["ServiceB", "ServiceA", "ServiceB"] ∧
    cycleKey ["ServiceA", "ServiceB", "ServiceA"] = "ServiceA,ServiceB" ∧
    (["ServiceA", "ServiceB", "ServiceA"].dropLast.toFinset =
      ["ServiceB", "ServiceA", "ServiceB"].dropLast.toFinset) := by
  refine ⟨by rfl, by rfl, by rfl, by rfl, by decide⟩

/-- Claim C4: every reported cycle is closed — it has at least two entries and
repeats its first class name at the end (the slice of the depth-first path from
the repeated node, closed by the starting name) — and the self-dependent class
`X` is reported as the one-member cycle represented as the list X, X. -/
theorem cycles_closed_and_self_loop :
    (∀ graph : List (String × List String), ∀ c ∈ findCycles graph,
      2 ≤ c.length ∧ c.head? = c.getLast?) ∧
    (analyzeCSharp srcSelf treeSelf).circularDependencyIssues = [⟨["X", "X"]⟩] :=
  ⟨fun graph c hc => findCycles_closed graph c hc, by rfl⟩

/-- Witness for claim C4 at a concrete graph: the self-loop cycle of `X`. -/
theorem cycles_closed_and_self_loop_witness :
    (["X", "X"] : List String) ∈ findCycles [("X", ["X"])] ∧
    (2 ≤ (["X", "X"] : List String).length ∧
      (["X", "X"] : List String).head? = (["X", "X"] : List String).getLast?) :=
  ⟨by decide, cycles_closed_and_self_loop.1 [("X", ["X"])] ["X", "X"] (by decide)⟩

/-- Claim C5 counterexample: the parameter of `class C { C(n) }` has a
resolvable name and an unresolvable type; it is kept, but its reported type is
the sentinel "?", not the value "unknown" the claim states. -/
theorem unresolved_type_sentinel_counterexample :
    (analyzeCSharp srcNoType treeNoType).constructors =
      [⟨"C", [⟨"?", "n", 12, 13⟩], 10, 18⟩] ∧
    ("?" : String) ≠ "unknown" :=
  ⟨by rfl, by decide⟩

/-- Claim C5 (amended): a parameter node of parameter kind with a resolvable
name whose type the resolver cannot determine is kept in the extracted list
(arity preserved) with the sentinel type "?"; the analysis call does not fail,
as `analyzeCSharp` is total. -/
theorem unresolved_type_sentinel_amended
    (source : String) (p : SyntaxNode) (rest : List SyntaxNode) (nn : SyntaxNode)
    (hkind : p.kind = "parameter")
    (hname : p.childForFieldName "name" = some nn)
    (hne : getText source nn ≠ "")
    (htype : findTypeOfParameter source p = "") :
    extractParams source (p :: rest) =
      ⟨"?", getText source nn, p.startIndex, p.endIndex⟩ :: extractParams source rest := by
  rw [extractParams]
  rw [if_pos (by simp [hkind])]
  simp only [hname]
  rw [if_neg hne, htype, if_pos rfl]

/-- Witness for the amended claim C5 at the concrete parameter of `srcNoType`. -/
theorem unresolved_type_sentinel_amended_witness :
    (paramNoType.kind = "parameter" ∧
      paramNoType.childForFieldName "name" = some nameNoType ∧
      getText srcNoType nameNoType ≠ "" ∧
      findTypeOfParameter srcNoType paramNoType = "") ∧
    extractParams srcNoType [paramNoType] = [⟨"?", "n", 12, 13⟩] :=
  ⟨⟨by rfl, by rfl, by decide, by rfl⟩,
   unresolved_type_sentinel_amended srcNoType paramNoType [] nameNoType
     (by rfl) (by rfl) (by decide) (by rfl)⟩

/-- Claim C6 (code bug): evaluated at the failing input — any document, here the
empty one — the analyzer returns a record consisting of exactly the four
collections `constructors`, `errors`, `concreteTypeIssues` and
`circularDependencyIssues`; `CSharpDiAnalysis` (mirroring the source interface)
has no missing-registration collection, although the caller in
`src/extension.ts` destructures and iterates `missingRegistrationIssues`. -/
theorem analyzeCSharp_result_has_no_missing_registrations :
    analyzeCSharp "" treeEmptyUnit = CSharpDiAnalysis.mk [] [] [] [] := by rfl

/-- Claim C7 counterexample: on a parameter node whose first two resolution
strategies fail and whose matching children are two array types, the code
returns the text of the FIRST matching child ("A"), while the claim's
last-matching-child description returns "B". -/
theorem type_resolver_fallback_counterexample :
    findTypeOfParameter srcTwoArrays nodeTwoArrays = "A" ∧
    findTypeOfParameterLastSpec srcTwoArrays nodeTwoArrays = "B" ∧
    findTypeOfParameter srcTwoArrays nodeTwoArrays ≠
      findTypeOfParameterLastSpec srcTwoArrays nodeTwoArrays :=
  ⟨by rfl, by rfl, by decide⟩

/-- Claim C7 (amended): when the resolver finds no designated "type" field and
no identifier-like immediate child, it scans the children in order and returns
the text of the FIRST child whose end offset is at or before the name field's
start offset and whose kind is identifier, generic-name, nullable-type,
predefined-type or array-type (empty string when none matches). -/
theorem type_resolver_fallback_first_match
    (source : String) (p : SyntaxNode) (nameIndex : Nat)
    (h1 : p.childForFieldName "type" = none)
    (h2 : p.children.find? (fun c => isIdLikeKind c.kind) = none)
    (h3 : nameIndex =
      (match p.childForFieldName "name" with
        | some nn => nn.startIndex
        | none => p.endIndex)) :
    findTypeOfParameter source p =
      (match p.children.find? (fun c => decide (c.endIndex ≤ nameIndex) &&
          (isIdLikeKind c.kind || c.kind == "array_type")) with
        | some c => getText source c
        | none => "") := by
  unfold findTypeOfParameter
  rw [h1]
  show (match p.children.find? (fun c => isIdLikeKind c.kind) with
    | some typeMod => getText source typeMod
    | none => findTypeLoop source _ p.children) = _
  rw [h2, ← h3]
  exact findTypeLoop_eq_find source nameIndex p.children

/-- Witness for the amended claim C7 at the two-array-type parameter node. -/
theorem type_resolver_fallback_first_match_witness :
    (nodeTwoArrays.childForFieldName "type" = none ∧
      nodeTwoArrays.children.find? (fun c => isIdLikeKind c.kind) = none ∧
      (4 : Nat) =
        (match nodeTwoArrays.childForFieldName "name" with
          | some nn => nn.startIndex
          | none => nodeTwoArrays.endIndex)) ∧
    findTypeOfParameter srcTwoArrays nodeTwoArrays =
      (match nodeTwoArrays.children.find? (fun c => decide (c.endIndex ≤ 4) &&
          (isIdLikeKind c.kind || c.kind == "array_type")) with
        | some c => getText srcTwoArrays c
        | none => "") :=
  ⟨⟨by rfl, by rfl, by rfl⟩,
   type_resolver_fallback_first_match srcTwoArrays nodeTwoArrays 4
     (by rfl) (by rfl) (by rfl)⟩

/-- Claim C8: the registration-suggestion builder returns a lexicographically
sorted (in the JavaScript default string order), duplicate-free list; and the
ILogger / ConsoleLogger / OrderService example includes the scoped
ILogger-to-ConsoleLogger suggestion while omitting a transient
self-registration for ConsoleLogger. -/
theorem suggestions_sorted_dedup_and_example :
    (∀ (cs : List ConstructorInfo) (source : String),
      List.Sorted (fun a b => jsLeB a b = true) (buildRegistrationSuggestions cs source) ∧
      (buildRegistrationSuggestions cs source).Nodup) ∧
    ("services.AddScoped<ILogger, ConsoleLogger>();" ∈
        buildRegistrationSuggestions ctorsLogger srcLogger ∧
      "services.AddTransient<ConsoleLogger>();" ∉
        buildRegistrationSuggestions ctorsLogger srcLogger) := by
  constructor
  · intro cs source
    haveI htot : IsTotal String (fun a b => jsLeB a b = true) :=
      ⟨fun a b => charListLe_total a.toList b.toList⟩
    haveI htrans : IsTrans String (fun a b => jsLeB a b = true) :=
      ⟨fun a b c => charListLe_trans a.toList b.toList c.toList⟩
    constructor
    · exact List.sorted_insertionSort _ _
    · apply (List.perm_insertionSort _ _).nodup_iff.mpr
      apply nodup_foldl_preserve
      · intro s x hs
        split
        · exact hs
        · exact setAdd_nodup _ _ hs
      · apply nodup_foldl_preserve
        · intro s q hs
          exact nodup_foldl_preserve _ (fun s2 x h2 => setAdd_nodup _ _ h2) _ _ hs
        · exact List.nodup_nil
  · exact ⟨by decide, by decide⟩

/-- Claim C9: the errors list carries exactly the single advisory warning when
the tree contains internal error markers and is empty otherwise; syntactically
valid input with zero classes or zero constructors yields no warnings and empty
collections, and a tree with error markers is still analyzed (the constructors
of the partial tree are extracted) without failing. -/
theorem parse_warning_characterisation :
    (∀ (source : String) (tree : SyntaxNode),
      (analyzeCSharp source tree).errors =
        (if hasErrorNode tree then [parseWarningText] else [])) ∧
    (analyzeCSharp "" treeEmptyUnit).errors = [] ∧
    (analyzeCSharp srcNoCtor treeNoCtor).errors = [] ∧
    (analyzeCSharp srcNoCtor treeNoCtor).constructors = [] ∧
    (analyzeCSharp srcNoCtor treeNoCtor).concreteTypeIssues = [] ∧
    (analyzeCSharp srcNoCtor treeNoCtor).circularDependencyIssues = [] ∧
    (analyzeCSharp srcWithError treeWithError).errors = [parseWarningText] ∧
    (analyzeCSharp srcWithError treeWithError).constructors =
      [⟨"X", [⟨"X", "x", 12, 15⟩], 10, 20⟩] :=
  ⟨fun _ _ => rfl, rfl, rfl, rfl, rfl, rfl, rfl, rfl⟩

/-- Claim C10: when a class name owns two or more constructor records whose
filtered dependency lists are nonempty, the dependency graph maps it to the
dependency list of the LAST such record; dependencies contributed by the
earlier records are absent from the graph consumed by cycle detection. -/
theorem buildDependencyGraph_last_constructor_wins
    (cs : List ConstructorInfo) (classes : List String) (N : String)
    (h : 2 ≤ (cs.filter (fun c => decide (c.className = N) &&
        decide (depsOf classes c ≠ []))).length) :
    (buildDependencyGraph cs classes).lookup N =
      ((cs.filter (fun c => decide (c.className = N) &&
          decide (depsOf classes c ≠ []))).getLast?).map (depsOf classes) := by
  unfold buildDependencyGraph
  rw [buildGraph_foldl_lookup]
  cases hfl : (cs.filter (fun c => decide (c.className = N) &&
      decide (depsOf classes c ≠ []))).getLast? with
  | none =>
    exfalso
    rw [List.getLast?_eq_none_iff] at hfl
    rw [hfl] at h
    exact absurd h (by decide)
  | some x => rfl

/-- Witness for claim C10: class `C` with two dependency-carrying constructors;
the graph keeps only the second record's dependency list `["E"]`. -/
theorem buildDependencyGraph_last_constructor_wins_witness :
    2 ≤ (([⟨"C", [⟨"D", "d", 0, 1⟩], 0, 1⟩, ⟨"C", [⟨"E", "e", 2, 3⟩], 2, 3⟩] :
        List ConstructorInfo).filter (fun c => decide (c.className = "C") &&
          decide (depsOf ["C", "D", "E"] c ≠ []))).length ∧
    (buildDependencyGraph
        [⟨"C", [⟨"D", "d", 0, 1⟩], 0, 1⟩, ⟨"C", [⟨"E", "e", 2, 3⟩], 2, 3⟩]
        ["C", "D", "E"]).lookup "C" = some ["E"] :=
  ⟨by decide,
   buildDependencyGraph_last_constructor_wins
     [⟨"C", [⟨"D", "d", 0, 1⟩], 0, 1⟩, ⟨"C", [⟨"E", "e", 2, 3⟩], 2, 3⟩]
     ["C", "D", "E"] "C" (by decide)⟩
